import Mathlib

/-!
Verification of the key-fob check-in/check-out engine.

Shallow embedding of `src/app/engine.py`, `src/app/models.py` and
`src/app/crypto_secure.py`.

Modelling conventions:
* Time is an integer count of microseconds (Python `datetime` resolution);
  `CHECKOUT_WINDOW = timedelta(seconds=20)` and
  `CHECKIN_MIN_AGE = timedelta(minutes=2)` become the corresponding
  microsecond counts.
* The SQLite tables become: `registered_tags` (primary key `uid`) a partial
  map `Int → Option TagReg`; `uuid_to_encrypted_content` the predicate
  `labels : String → Bool` (only its EXISTS test is ever used by the code
  modelled here); `logs` a list of `LogEntry` in insertion order, a fresh
  AUTOINCREMENT id supplied by the caller.
* SQL `ORDER BY checkOutTime DESC LIMIT 1` leaves the order of ties (and of
  NULL `checkOutTime`, which sorts after all non-NULL values in DESC order)
  unspecified; `mostRecent` picks one entry maximal for that sort key.
* Python exceptions become `Except String`; a `ValueError` that
  `process_key_tag` leaves uncaught (the bare `check_in_key` call) becomes
  the outcome `KeyOutcome.raised`.
-/

namespace KeyFob

/-- Time in microseconds, the resolution of Python `datetime`. -/
abbrev Time := Int

/-- `Engine.CHECKOUT_WINDOW = timedelta(seconds=20)`, in microseconds. -/
def CHECKOUT_WINDOW : Time := 20 * 1000000

/-- `Engine.CHECKIN_MIN_AGE = timedelta(minutes=2)`, in microseconds. -/
def CHECKIN_MIN_AGE : Time := 120 * 1000000

/-- One row of `registered_tags` (sans timestamps, which the modelled code
never reads): `text_uuid`, `type`, `active`. `uid` is the map key. -/
structure TagReg where
  text_uuid : String
  type : String
  active : Bool
deriving DecidableEq

/-- The `registered_tags` table: `uid` is its primary key. -/
abbrev Regs := Int → Option TagReg

/-- The EXISTS test against `uuid_to_encrypted_content`. -/
abbrev Labels := String → Bool

/-- One row of the `logs` table. `checkOutTime` is nullable in the schema
(DEFAULT fills it on insert), hence `Option`. -/
structure LogEntry where
  id : Nat
  tag_uid : Int
  text_uuid : String
  employee_text_uuid : Option String
  checkOutTime : Option Time
  checkInTime : Option Time
deriving DecidableEq

abbrev Ledger := List LogEntry

/-- `SessionState` from `engine.py`: both fields default to `None`. -/
structure SessionState where
  active_employee_card_id : Option Int := none
  window_expires_at : Option Time := none
deriving DecidableEq

/-- `verify_tag_content(uid, expected_content)`: SELECT over
`registered_tags` with `uid = ? AND active = 1 AND text_uuid = ?` and an
EXISTS subquery against `uuid_to_encrypted_content`. -/
def verify_tag_content (regs : Regs) (labels : Labels) (uid : Int)
    (expected_content : String) : Bool :=
  match regs uid with
  | some r => r.active && (r.text_uuid == expected_content) && labels r.text_uuid
  | none => false

/-- WHERE clause `tag_uid = ? AND text_uuid = ?` of the ledger queries. -/
def pairB (uid : Int) (text_uuid : String) (e : LogEntry) : Bool :=
  (e.tag_uid == uid) && (e.text_uuid == text_uuid)

/-- WHERE clause `tag_uid = ? AND text_uuid = ? AND checkInTime IS NULL`:
the entry is an open ("key currently out") entry for the pair. -/
def openForB (uid : Int) (text_uuid : String) (e : LogEntry) : Bool :=
  (e.tag_uid == uid) && (e.text_uuid == text_uuid) && (e.checkInTime == none)

/-- Strict comparison of the `ORDER BY checkOutTime DESC` sort key:
`a` sorts strictly before `b` (NULL sorts last in DESC order). -/
def moreRecentB (a b : Option Time) : Bool :=
  match a, b with
  | none, _ => false
  | some _, none => true
  | some x, some y => y < x

/-- `ORDER BY checkOutTime DESC LIMIT 1`: an entry maximal for the sort
key (the SQL leaves ties unspecified; this keeps the last maximal one). -/
def mostRecent : Ledger → Option LogEntry
  | [] => none
  | e :: es =>
    match mostRecent es with
    | none => some e
    | some a => if moreRecentB e.checkOutTime a.checkOutTime then some e else some a

/-- `get_key_log_times(uid, text_uuid)`: the `(checkOutTime, checkInTime)`
of the most recent row for the pair, or `(None, None)` if none exists. -/
def get_key_log_times (uid : Int) (text_uuid : String) (l : Ledger) :
    Option Time × Option Time :=
  match mostRecent (l.filter (pairB uid text_uuid)) with
  | some r => (r.checkOutTime, r.checkInTime)
  | none => (none, none)

/-- Stamp `checkInTime` on the row with the given id
(the UPDATE ... WHERE id = ? of `check_in_key`). -/
def stampCheckIn (log_id : Nat) (now : Time) (e : LogEntry) : LogEntry :=
  if e.id = log_id then { e with checkInTime := some now } else e

/-- `check_in_key(uid, text_uuid)`: select the most recent open row for the
pair; raise `ValueError` if none, else set its `checkInTime`. -/
def check_in_key (uid : Int) (text_uuid : String) (now : Time) (l : Ledger) :
    Except String Ledger :=
  match mostRecent (l.filter (openForB uid text_uuid)) with
  | none => .error "This key is not checked out to you."
  | some row => .ok (l.map (stampCheckIn row.id now))

/-- `check_out_key(uid, text_uuid, employee_uid)`: raise `ValueError` if an
open row exists for the pair, else INSERT a new row whose
`employee_text_uuid` is the scalar subquery over `registered_tags` and whose
`checkOutTime` is filled by the column DEFAULT. -/
def check_out_key (regs : Regs) (uid : Int) (text_uuid : String)
    (employee_uid : Int) (now : Time) (next_id : Nat) (l : Ledger) :
    Except String Ledger :=
  if l.filter (openForB uid text_uuid) = [] then
    .ok (l ++ [{ id := next_id, tag_uid := uid, text_uuid := text_uuid,
                 employee_text_uuid := (regs employee_uid).map (fun r => r.text_uuid),
                 checkOutTime := some now, checkInTime := none }])
  else
    .error "This key is already checked out."

/-- `Engine.process_emp_tag`: the employee-session state machine.
A `datetime` is always truthy, so the Python guard
`self.state.window_expires_at and now <= self.state.window_expires_at`
is `window_expires_at ≠ None ∧ now ≤ window_expires_at`. -/
def process_emp_tag (s : SessionState) (uid : Int) (now : Time) : SessionState :=
  if s.active_employee_card_id = some uid then
    match s.window_expires_at with
    | some exp =>
      if now ≤ exp then { active_employee_card_id := none, window_expires_at := none }
      else { active_employee_card_id := some uid,
             window_expires_at := some (now + CHECKOUT_WINDOW) }
    | none => { active_employee_card_id := some uid,
                window_expires_at := some (now + CHECKOUT_WINDOW) }
  else { active_employee_card_id := some uid,
         window_expires_at := some (now + CHECKOUT_WINDOW) }

/-- Outcome printed (or raised) by `Engine.process_key_tag`. -/
inductive KeyOutcome where
  /-- "[Check OUT]> Success!" -/
  | checkedOut
  /-- "[Check Out]> Failed! Error checking out key" (caught `ValueError`). -/
  | checkoutFailed
  /-- "[Check Out]> Failed! No active employee card." -/
  | noActiveEmployee
  /-- "[Check IN]> Failed! ... It can only be checked in after r seconds.";
  `remaining` is `check_out + CHECKIN_MIN_AGE - now` in microseconds
  (printed via `timedelta.total_seconds()`). -/
  | cooldown (remaining : Time)
  /-- "[Check IN]> Success!" -/
  | checkedIn
  /-- "[ERROR]> Unexpected state encountered while processing key tag." -/
  | unexpectedState
  /-- An uncaught `ValueError` escaping from the bare `check_in_key` call. -/
  | raised
deriving DecidableEq

/-- `Engine.process_key_tag`: the key checkout/check-in decision. Returns
the new ledger, the new session state, and the reported outcome. -/
def process_key_tag (regs : Regs) (l : Ledger) (s : SessionState) (uid : Int)
    (text : String) (now : Time) (next_id : Nat) :
    Ledger × SessionState × KeyOutcome :=
  let co := (get_key_log_times uid text l).1
  let ci := (get_key_log_times uid text l).2
  if (co = none ∧ ci = none) ∨ (ci ≠ none ∧ co ≠ none) then
    -- Key is currently in the office: attempt checkout.
    match s.active_employee_card_id, s.window_expires_at with
    | some emp, some exp =>
      if now > exp then
        (l, { active_employee_card_id := none, window_expires_at := none },
         .noActiveEmployee)
      else
        match check_out_key regs uid text emp now next_id l with
        | .error _ => (l, s, .checkoutFailed)
        | .ok l2 => (l2, s, .checkedOut)
    | _, _ =>
      (l, { active_employee_card_id := none, window_expires_at := none },
       .noActiveEmployee)
  else
    match co, ci with
    | some t0, none =>
      -- Key is currently checked out: attempt check-in.
      if t0 + CHECKIN_MIN_AGE > now then
        (l, s, .cooldown (t0 + CHECKIN_MIN_AGE - now))
      else
        match check_in_key uid text now l with
        | .error _ => (l, s, .raised)
        | .ok l2 => (l2, s, .checkedIn)
    | _, _ => (l, s, .unexpectedState)

/-- Session states reachable from the engine's initial `SessionState()`
through the two tap handlers. -/
inductive Reachable : SessionState → Prop where
  | init : Reachable {}
  | emp (s : SessionState) (uid : Int) (now : Time) :
      Reachable s → Reachable (process_emp_tag s uid now)
  | key (regs : Regs) (l : Ledger) (s : SessionState) (uid : Int)
      (text : String) (now : Time) (next_id : Nat) :
      Reachable s → Reachable (process_key_tag regs l s uid text now next_id).2.1

/-- The ledger invariant: at most one open entry per pair. -/
def atMostOneOpen (l : Ledger) : Prop :=
  ∀ uid text_uuid, (l.filter (openForB uid text_uuid)).length ≤ 1

/-- Ceiling division of integers (for a positive divisor). -/
def ceilDiv (a b : Int) : Int := -(Int.ediv (-a) b)

/-! ### Label cipher (`crypto_secure.py`)

Byte strings are lists of byte values. The AES-GCM primitive and the UTF-8
codec live in external libraries (`cryptography`, Python `str`); they enter
the model as parameters, with their contracts taken as hypotheses. The
fresh random nonce drawn by `os.urandom(12)` is a 12-byte parameter. -/

abbrev Bytes := List Nat

/-- The external AEAD primitive (`AESGCM`): encrypt returns
ciphertext plus tag; decrypt verifies and returns the plaintext or fails. -/
structure AEAD where
  enc : Bytes → Bytes → Bytes → Bytes
  dec : Bytes → Bytes → Bytes → Option Bytes

/-- `Crypto.encrypt_name`: encode the label, encrypt under a fresh 12-byte
nonce, and prepend the nonce to ciphertext+tag. -/
def encrypt_name (A : AEAD) (encode : String → Bytes) (key nonce : Bytes)
    (full_name : String) : Bytes :=
  nonce ++ A.enc key nonce (encode full_name)

/-- `Crypto.decrypt_name`: split the first 12 bytes as the nonce
(`blob[:12]`, `blob[12:]`), decrypt, and decode the plaintext. -/
def decrypt_name (A : AEAD) (decode : Bytes → Option String) (key : Bytes)
    (blob : Bytes) : Option String :=
  (A.dec key (blob.take 12) (blob.drop 12)).bind decode

/-! ### Helper lemmas -/

theorem moreRecentB_irrefl (a : Option Time) : moreRecentB a a = false := by
  cases a <;> simp [moreRecentB]

theorem moreRecentB_asymm {a b : Option Time} (h : moreRecentB a b = true) :
    moreRecentB b a = false := by
  cases a with
  | none => simp [moreRecentB] at h
  | some x =>
    cases b with
    | none => simp [moreRecentB]
    | some y =>
      simp [moreRecentB] at h ⊢
      exact le_of_lt h

theorem moreRecentB_false_trans {a b c : Option Time}
    (h1 : moreRecentB a b = false) (h2 : moreRecentB b c = false) :
    moreRecentB a c = false := by
  cases a with
  | none => simp [moreRecentB]
  | some x =>
    cases b with
    | none => simp [moreRecentB] at h1
    | some y =>
      cases c with
      | none => simp [moreRecentB] at h2
      | some z =>
        simp [moreRecentB] at h1 h2 ⊢
        exact le_trans h1 h2

theorem mostRecent_eq_none_iff (l : Ledger) : mostRecent l = none ↔ l = [] := by
  cases l with
  | nil => simp [mostRecent]
  | cons e es =>
    simp only [mostRecent]
    cases mostRecent es
    · simp
    · simp
      split <;> simp

theorem mostRecent_mem (l : Ledger) :
    ∀ e : LogEntry, mostRecent l = some e → e ∈ l := by
  induction l with
  | nil => intro e h; simp [mostRecent] at h
  | cons x xs ih =>
    intro e h
    simp only [mostRecent] at h
    split at h
    · simp at h; simp [h]
    · rename_i a ha
      split at h
      · simp at h; simp [h]
      · simp at h
        exact List.mem_cons_of_mem x (h ▸ ih a ha)

theorem mostRecent_max (l : Ledger) :
    ∀ e : LogEntry, mostRecent l = some e →
      ∀ x ∈ l, moreRecentB x.checkOutTime e.checkOutTime = false := by
  induction l with
  | nil => intro e h; simp [mostRecent] at h
  | cons y ys ih =>
    intro e h
    simp only [mostRecent] at h
    split at h
    · rename_i hx
      simp at h
      subst h
      intro x hxmem
      rcases List.mem_cons.1 hxmem with rfl | hmem
      · exact moreRecentB_irrefl _
      · rw [(mostRecent_eq_none_iff ys).1 hx] at hmem
        simp at hmem
    · rename_i a ha
      split at h
      · rename_i hb
        simp at h
        subst h
        intro x hxmem
        rcases List.mem_cons.1 hxmem with rfl | hmem
        · exact moreRecentB_irrefl _
        · exact moreRecentB_false_trans (ih a ha x hmem) (moreRecentB_asymm hb)
      · rename_i hb
        simp at h
        subst h
        intro x hxmem
        rcases List.mem_cons.1 hxmem with rfl | hmem
        · exact Bool.eq_false_iff.2 hb
        · exact ih a ha x hmem

theorem check_out_key_ok {regs : Regs} {uid : Int} {text : String} {emp : Int}
    {now : Time} {nid : Nat} {l l2 : Ledger}
    (h : check_out_key regs uid text emp now nid l = .ok l2) :
    l.filter (openForB uid text) = [] ∧
    l2 = l ++ [{ id := nid, tag_uid := uid, text_uuid := text,
                 employee_text_uuid := (regs emp).map (fun r => r.text_uuid),
                 checkOutTime := some now, checkInTime := none }] := by
  unfold check_out_key at h
  split at h
  · rename_i hf
    simp at h
    exact ⟨hf, h.symm⟩
  · simp at h

theorem openForB_stamp {u : Int} {t : String} {i : Nat} {now : Time} {e : LogEntry}
    (h : openForB u t (stampCheckIn i now e) = true) : openForB u t e = true := by
  unfold stampCheckIn at h
  split at h
  · simp [openForB] at h
  · exact h

theorem filter_map_stamp_le (u : Int) (t : String) (i : Nat) (now : Time)
    (l : Ledger) :
    ((l.map (stampCheckIn i now)).filter (openForB u t)).length ≤
      (l.filter (openForB u t)).length := by
  induction l with
  | nil => simp
  | cons x xs ih =>
    simp only [List.map_cons, List.filter_cons]
    by_cases hx : openForB u t (stampCheckIn i now x) = true
    · rw [if_pos hx, if_pos (openForB_stamp hx)]
      simpa using ih
    · rw [if_neg hx]
      split
      · exact le_trans ih (Nat.le_succ _)
      · exact ih

/-! ### Claims -/

/-- C1: the employee session state machine makes the spec's three
transitions: from Idle any valid employee tap arms the session for
`now + CHECKOUT_WINDOW` (20 seconds); from Armed, a same-uid tap within the
window cancels to Idle; a same-uid tap after the window, or any other
employee's tap, replaces the session with `Armed(new_uid, now +
CHECKOUT_WINDOW)`. -/
theorem emp_session_transitions (uid uid2 : Int) (now exp : Time) (w : Option Time) :
    (process_emp_tag { active_employee_card_id := none, window_expires_at := w } uid now
      = { active_employee_card_id := some uid,
          window_expires_at := some (now + CHECKOUT_WINDOW) })
  ∧ (now ≤ exp →
      process_emp_tag
          { active_employee_card_id := some uid, window_expires_at := some exp } uid now
        = { active_employee_card_id := none, window_expires_at := none })
  ∧ (now > exp →
      process_emp_tag
          { active_employee_card_id := some uid, window_expires_at := some exp } uid now
        = { active_employee_card_id := some uid,
            window_expires_at := some (now + CHECKOUT_WINDOW) })
  ∧ (uid2 ≠ uid →
      process_emp_tag
          { active_employee_card_id := some uid, window_expires_at := w } uid2 now
        = { active_employee_card_id := some uid2,
            window_expires_at := some (now + CHECKOUT_WINDOW) })
  ∧ CHECKOUT_WINDOW = 20 * 1000000 := by
  refine ⟨?_, ?_, ?_, ?_, rfl⟩
  · simp [process_emp_tag]
  · intro h; simp [process_emp_tag, h]
  · intro h; simp [process_emp_tag, not_le.2 h]
  · intro h
    unfold process_emp_tag
    rw [if_neg (by simp only [Option.some.injEq]; exact fun hc => h hc.symm)]

theorem emp_session_transitions_witness :
    (process_emp_tag { active_employee_card_id := none, window_expires_at := none } 1 0
      = { active_employee_card_id := some 1,
          window_expires_at := some (0 + CHECKOUT_WINDOW) })
  ∧ (process_emp_tag
        { active_employee_card_id := some 1, window_expires_at := some 0 } 1 0
      = { active_employee_card_id := none, window_expires_at := none })
  ∧ (process_emp_tag
        { active_employee_card_id := some 1, window_expires_at := some 0 } 1 5
      = { active_employee_card_id := some 1,
          window_expires_at := some (5 + CHECKOUT_WINDOW) })
  ∧ (process_emp_tag
        { active_employee_card_id := some 1, window_expires_at := some 0 } 2 0
      = { active_employee_card_id := some 2,
          window_expires_at := some (0 + CHECKOUT_WINDOW) }) :=
  ⟨(emp_session_transitions 1 2 0 0 none).1,
   (emp_session_transitions 1 2 0 0 none).2.1 (by decide),
   (emp_session_transitions 1 2 5 0 none).2.2.1 (by decide),
   (emp_session_transitions 1 2 0 0 (some 0)).2.2.2.1 (by decide)⟩

/-- C10: in every session state reachable through the engine's tap
handlers, `active_employee_card_id` is `None` iff `window_expires_at` is
`None`: both are always set or cleared together. -/
theorem session_fields_together (s : SessionState) (h : Reachable s) :
    s.active_employee_card_id = none ↔ s.window_expires_at = none := by
  induction h with
  | init => simp
  | emp s uid now _ _ =>
    unfold process_emp_tag
    split
    · split
      · split <;> simp
      · simp
    · simp
  | key regs l s uid text now next_id _ ih =>
    unfold process_key_tag
    dsimp only
    split
    · split
      · split
        · simp
        · split <;> simpa using ih
      · simp
    · split
      · split
        · simpa using ih
        · split <;> simpa using ih
      · simpa using ih

theorem session_fields_together_witness :
    SessionState.active_employee_card_id {} = none ↔
      SessionState.window_expires_at {} = none :=
  session_fields_together {} Reachable.init

/-- C6: `verify_tag_content` returns true iff an active registration for
the uid exists whose bound credential equals the observed content and whose
credential has a label record; in every other case it returns false. -/
theorem verify_content_iff (regs : Regs) (labels : Labels) (uid : Int)
    (content : String) :
    verify_tag_content regs labels uid content = true ↔
      ∃ r, regs uid = some r ∧ r.active = true ∧ r.text_uuid = content
        ∧ labels r.text_uuid = true := by
  unfold verify_tag_content
  cases h : regs uid with
  | none => simp
  | some r =>
    simp only [Bool.and_eq_true, beq_iff_eq]
    constructor
    · rintro ⟨⟨ha, he⟩, hl⟩
      exact ⟨r, rfl, ha, he, hl⟩
    · rintro ⟨r2, hr2, ha, he, hl⟩
      rw [Option.some_inj] at hr2
      subst hr2
      exact ⟨⟨ha, he⟩, hl⟩

/-- C2: for every pair, at most one ledger entry is open at any instant:
`check_out_key` refuses (raises) when an open entry for the pair exists,
a successful `check_out_key` preserves the at-most-one-open invariant, and
`check_in_key` never increases the number of open entries of any pair
(it only closes), so it preserves the invariant too. -/
theorem ledger_open_invariant (regs : Regs) (uid emp : Int) (text : String)
    (now : Time) (nid : Nat) (l : Ledger) :
    (l.filter (openForB uid text) ≠ [] →
       check_out_key regs uid text emp now nid l
         = .error "This key is already checked out.")
  ∧ (∀ l2, check_out_key regs uid text emp now nid l = .ok l2 →
       atMostOneOpen l → atMostOneOpen l2)
  ∧ (∀ l2, check_in_key uid text now l = .ok l2 →
       ∀ u t, (l2.filter (openForB u t)).length ≤ (l.filter (openForB u t)).length)
  ∧ (∀ l2, check_in_key uid text now l = .ok l2 →
       atMostOneOpen l → atMostOneOpen l2) := by
  have hcount : ∀ l2, check_in_key uid text now l = .ok l2 →
      ∀ u t, (l2.filter (openForB u t)).length ≤ (l.filter (openForB u t)).length := by
    intro l2 hok u t
    unfold check_in_key at hok
    split at hok
    · simp at hok
    · rename_i row hrow
      simp at hok
      subst hok
      exact filter_map_stamp_le u t row.id now l
  refine ⟨?_, ?_, hcount, ?_⟩
  · intro h; unfold check_out_key; rw [if_neg h]
  · intro l2 hok hinv
    obtain ⟨hempty, rfl⟩ := check_out_key_ok hok
    intro u t
    rw [List.filter_append]
    by_cases hc : u = uid ∧ t = text
    · obtain ⟨rfl, rfl⟩ := hc
      rw [hempty]
      simp [openForB]
    · have hnew : openForB u t
          { id := nid, tag_uid := uid, text_uuid := text,
            employee_text_uuid := (regs emp).map (fun r => r.text_uuid),
            checkOutTime := some now, checkInTime := none } = false := by
        rw [Bool.eq_false_iff]
        intro hcontra
        simp [openForB] at hcontra
        exact hc ⟨hcontra.1.symm, hcontra.2.symm⟩
      rw [List.filter_cons_of_neg (by simp [hnew])]
      simpa using hinv u t
  · intro l2 hok hinv u t
    exact le_trans (hcount l2 hok u t) (hinv u t)

theorem ledger_open_invariant_witness :
    check_out_key (fun _ => none) 7 "k" 1 0 0
        [{ id := 0, tag_uid := 7, text_uuid := "k", employee_text_uuid := none,
           checkOutTime := some 0, checkInTime := none }]
      = .error "This key is already checked out."
  ∧ atMostOneOpen
      [{ id := 0, tag_uid := 7, text_uuid := "k", employee_text_uuid := none,
         checkOutTime := some 0, checkInTime := none }] := by
  constructor
  · exact (ledger_open_invariant (fun _ => none) 7 1 "k" 0 0
        [{ id := 0, tag_uid := 7, text_uuid := "k", employee_text_uuid := none,
           checkOutTime := some 0, checkInTime := none }]).1 (by decide)
  · exact (ledger_open_invariant (fun _ => none) 7 1 "k" 0 0 []).2.1
      [{ id := 0, tag_uid := 7, text_uuid := "k", employee_text_uuid := none,
         checkOutTime := some 0, checkInTime := none }]
      rfl
      (by simp only [atMostOneOpen]; intro u t; simp)

/-- C5: `check_in_key` fails with the not-checked-out error iff no open
entry exists for the pair; on success it stamps `checkInTime` on an open
entry whose `checkOutTime` is maximal among the pair's open entries, and
every row with a different id is mapped to itself unchanged. -/
theorem check_in_key_spec (uid : Int) (text : String) (now : Time) (l : Ledger) :
    (check_in_key uid text now l = .error "This key is not checked out to you." ↔
       l.filter (openForB uid text) = [])
  ∧ (∀ l2, check_in_key uid text now l = .ok l2 →
       ∃ row, row ∈ l.filter (openForB uid text)
         ∧ (∀ x ∈ l.filter (openForB uid text),
              moreRecentB x.checkOutTime row.checkOutTime = false)
         ∧ l2 = l.map (stampCheckIn row.id now)
         ∧ (∀ x ∈ l, x.id ≠ row.id → stampCheckIn row.id now x = x)) := by
  constructor
  · unfold check_in_key
    split
    · rename_i hnone
      constructor
      · intro _; exact (mostRecent_eq_none_iff _).1 hnone
      · intro _; rfl
    · rename_i row hrow
      constructor
      · intro h; simp at h
      · intro h
        rw [h] at hrow
        simp [mostRecent] at hrow
  · intro l2 hok
    unfold check_in_key at hok
    split at hok
    · simp at hok
    · rename_i row hrow
      simp at hok
      refine ⟨row, mostRecent_mem _ row hrow, mostRecent_max _ row hrow, hok.symm, ?_⟩
      intro x _ hx
      unfold stampCheckIn
      rw [if_neg hx]

theorem check_in_key_spec_witness :
    ∃ row, row ∈ List.filter (openForB 7 "k")
        [{ id := 0, tag_uid := 7, text_uuid := "k", employee_text_uuid := none,
           checkOutTime := some 0, checkInTime := none }]
      ∧ (∀ x ∈ List.filter (openForB 7 "k")
            [{ id := 0, tag_uid := 7, text_uuid := "k", employee_text_uuid := none,
               checkOutTime := some 0, checkInTime := none }],
           moreRecentB x.checkOutTime row.checkOutTime = false)
      ∧ [{ id := 0, tag_uid := 7, text_uuid := "k", employee_text_uuid := none,
           checkOutTime := some 0, checkInTime := some 5 }]
          = List.map (stampCheckIn row.id 5)
              [{ id := 0, tag_uid := 7, text_uuid := "k", employee_text_uuid := none,
                 checkOutTime := some 0, checkInTime := none }]
      ∧ (∀ x ∈ [{ id := 0, tag_uid := 7, text_uuid := "k",
                  employee_text_uuid := none,
                  checkOutTime := some 0, checkInTime := none }],
           x.id ≠ row.id → stampCheckIn row.id 5 x = x) :=
  (check_in_key_spec 7 "k" 5
      [{ id := 0, tag_uid := 7, text_uuid := "k", employee_text_uuid := none,
         checkOutTime := some 0, checkInTime := none }]).2
    [{ id := 0, tag_uid := 7, text_uuid := "k", employee_text_uuid := none,
       checkOutTime := some 0, checkInTime := some 5 }]
    rfl

theorem get_key_log_times_open {uid : Int} {text : String} {l : Ledger}
    {t0 : Time} (h : get_key_log_times uid text l = (some t0, none)) :
    ∃ r, mostRecent (l.filter (pairB uid text)) = some r ∧
         r ∈ l.filter (openForB uid text) := by
  unfold get_key_log_times at h
  split at h
  · rename_i r hr
    simp at h
    refine ⟨r, hr, ?_⟩
    have hmem := mostRecent_mem _ r hr
    rw [List.mem_filter] at hmem ⊢
    refine ⟨hmem.1, ?_⟩
    have hp := hmem.2
    simp [pairB] at hp
    simp [openForB, hp.1, hp.2, h.2]
  · simp at h

theorem check_in_key_ok_of_open {uid : Int} {text : String} {l : Ledger}
    {t0 : Time} (now : Time)
    (h : get_key_log_times uid text l = (some t0, none)) :
    ∃ l2, check_in_key uid text now l = .ok l2 := by
  obtain ⟨r, _, hr⟩ := get_key_log_times_open h
  unfold check_in_key
  cases hm : mostRecent (l.filter (openForB uid text)) with
  | none =>
    rw [(mostRecent_eq_none_iff _).1 hm] at hr
    simp at hr
  | some row => exact ⟨_, rfl⟩

/-- C3 (amended): with an open most-recent entry checked out at `t0`, a
key tap at `now < t0 + CHECKIN_MIN_AGE` reports a cooldown of exactly
`t0 + CHECKIN_MIN_AGE - now` (the raw difference, not its ceiling) and
leaves ledger and session untouched; at `now ≥ t0 + CHECKIN_MIN_AGE` the
check-in proceeds. -/
theorem checkin_cooldown (regs : Regs) (l : Ledger) (s : SessionState)
    (uid : Int) (text : String) (now t0 : Time) (nid : Nat)
    (hget : get_key_log_times uid text l = (some t0, none)) :
    (now < t0 + CHECKIN_MIN_AGE →
       process_key_tag regs l s uid text now nid
         = (l, s, .cooldown (t0 + CHECKIN_MIN_AGE - now)))
  ∧ (t0 + CHECKIN_MIN_AGE ≤ now →
       (process_key_tag regs l s uid text now nid).2.2 = .checkedIn) := by
  constructor
  · intro h
    unfold process_key_tag
    dsimp only
    rw [hget]
    dsimp only
    rw [if_neg (by simp)]
    rw [if_pos h]
  · intro h
    obtain ⟨l2, hok⟩ := check_in_key_ok_of_open now hget
    unfold process_key_tag
    dsimp only
    rw [hget]
    dsimp only
    rw [if_neg (by simp)]
    rw [if_neg (not_lt.2 h), hok]

theorem checkin_cooldown_witness :
    (process_key_tag (fun _ => none)
        [{ id := 0, tag_uid := 7, text_uuid := "k", employee_text_uuid := none,
           checkOutTime := some 0, checkInTime := none }]
        {} 7 "k" 500000 1)
      = ([{ id := 0, tag_uid := 7, text_uuid := "k", employee_text_uuid := none,
            checkOutTime := some 0, checkInTime := none }],
         {}, .cooldown (0 + CHECKIN_MIN_AGE - 500000))
  ∧ (process_key_tag (fun _ => none)
        [{ id := 0, tag_uid := 7, text_uuid := "k", employee_text_uuid := none,
           checkOutTime := some 0, checkInTime := none }]
        {} 7 "k" 120000000 1).2.2 = KeyOutcome.checkedIn :=
  ⟨(checkin_cooldown (fun _ => none)
      [{ id := 0, tag_uid := 7, text_uuid := "k", employee_text_uuid := none,
         checkOutTime := some 0, checkInTime := none }]
      {} 7 "k" 500000 0 1 rfl).1 (by decide),
   (checkin_cooldown (fun _ => none)
      [{ id := 0, tag_uid := 7, text_uuid := "k", employee_text_uuid := none,
         checkOutTime := some 0, checkInTime := none }]
      {} 7 "k" 120000000 0 1 rfl).2 (by decide)⟩

/-- C3 counterexample: with the key checked out at `t0 = 0` and a tap at
`now = 0.5` seconds, the code reports a remaining wait of exactly
119\.5 seconds (119500000 microseconds), which differs from the ceiling
`ceil(119.5) = 120` seconds the claim states. -/
theorem checkin_cooldown_counterexample :
    (process_key_tag (fun _ => none)
        [{ id := 0, tag_uid := 7, text_uuid := "k", employee_text_uuid := none,
           checkOutTime := some 0, checkInTime := none }]
        {} 7 "k" 500000 1).2.2
      = KeyOutcome.cooldown 119500000
  ∧ (119500000 : Int) ≠ 1000000 * ceilDiv 119500000 1000000 := by
  constructor
  · decide
  · decide

/-- C4: a key tap in the available state (both ledger timestamps null, or
both non-null) without a valid armed session (active employee null, expiry
null, or `now` past expiry) fails with the no-active-employee outcome,
leaves the ledger unchanged, and resets the session to Idle. -/
theorem key_tap_no_active_session (regs : Regs) (l : Ledger) (s : SessionState)
    (uid : Int) (text : String) (now : Time) (nid : Nat)
    (havail : ((get_key_log_times uid text l).1 = none
                 ∧ (get_key_log_times uid text l).2 = none)
             ∨ ((get_key_log_times uid text l).2 ≠ none
                 ∧ (get_key_log_times uid text l).1 ≠ none))
    (hsess : s.active_employee_card_id = none ∨ s.window_expires_at = none
           ∨ (∀ exp, s.window_expires_at = some exp → now > exp)) :
    process_key_tag regs l s uid text now nid
      = (l, { active_employee_card_id := none, window_expires_at := none },
         .noActiveEmployee) := by
  unfold process_key_tag
  dsimp only
  rw [if_pos havail]
  obtain ⟨a, w⟩ := s
  cases a with
  | none => cases w <;> rfl
  | some emp =>
    cases w with
    | none => rfl
    | some exp =>
      rcases hsess with h1 | h2 | h3
      · simp at h1
      · simp at h2
      · exact if_pos (h3 exp rfl)

theorem key_tap_no_active_session_witness :
    process_key_tag (fun _ => none) [] {} 7 "k" 0 0
      = ([], { active_employee_card_id := none, window_expires_at := none },
         .noActiveEmployee) :=
  key_tap_no_active_session (fun _ => none) [] {} 7 "k" 0 0
    (Or.inl ⟨rfl, rfl⟩) (Or.inl rfl)

/-- C7: a key tap in the available state with a valid armed session leaves
the session exactly as it was, whether the checkout succeeds or fails with
the already-checked-out error, so one employee can check out several keys
in one window. -/
theorem checkout_preserves_session (regs : Regs) (l : Ledger) (s : SessionState)
    (uid emp : Int) (text : String) (now exp : Time) (nid : Nat)
    (havail : ((get_key_log_times uid text l).1 = none
                 ∧ (get_key_log_times uid text l).2 = none)
             ∨ ((get_key_log_times uid text l).2 ≠ none
                 ∧ (get_key_log_times uid text l).1 ≠ none))
    (ha : s.active_employee_card_id = some emp)
    (hw : s.window_expires_at = some exp)
    (hnow : now ≤ exp) :
    (process_key_tag regs l s uid text now nid).2.1 = s
  ∧ ((process_key_tag regs l s uid text now nid).2.2 = KeyOutcome.checkedOut
     ∨ (process_key_tag regs l s uid text now nid).2.2
         = KeyOutcome.checkoutFailed) := by
  have key : process_key_tag regs l s uid text now nid =
      (match check_out_key regs uid text emp now nid l with
       | .error _ => (l, s, .checkoutFailed)
       | .ok l2 => (l2, s, .checkedOut)) := by
    unfold process_key_tag
    dsimp only
    rw [if_pos havail, ha, hw]
    dsimp only
    rw [if_neg (not_lt.2 hnow)]
  rcases hck : check_out_key regs uid text emp now nid l with e | l2
  · rw [key, hck]
    exact ⟨rfl, Or.inr rfl⟩
  · rw [key, hck]
    exact ⟨rfl, Or.inl rfl⟩

theorem checkout_preserves_session_witness :
    (process_key_tag (fun _ => none) []
        { active_employee_card_id := some 1, window_expires_at := some 10 }
        7 "k" 0 0).2.1
      = { active_employee_card_id := some 1, window_expires_at := some 10 }
  ∧ ((process_key_tag (fun _ => none) []
        { active_employee_card_id := some 1, window_expires_at := some 10 }
        7 "k" 0 0).2.2 = KeyOutcome.checkedOut
     ∨ (process_key_tag (fun _ => none) []
          { active_employee_card_id := some 1, window_expires_at := some 10 }
          7 "k" 0 0).2.2 = KeyOutcome.checkoutFailed) :=
  checkout_preserves_session (fun _ => none) []
    { active_employee_card_id := some 1, window_expires_at := some 10 }
    7 1 "k" 0 10 0 (Or.inl ⟨rfl, rfl⟩) rfl rfl (by decide)

/-- C8: in a ledger where every entry has a non-null `checkOutTime` (as
every entry created by `check_out_key` has), `get_key_log_times` never
returns a null checkout with a non-null check-in, so the defensive
unexpected-state branch of the key handler is unreachable; and
`check_out_key` keeps every entry's `checkOutTime` non-null. -/
theorem unexpected_state_unreachable (regs : Regs) (l : Ledger)
    (s : SessionState) (uid emp : Int) (text : String) (now : Time) (nid : Nat)
    (hall : ∀ e ∈ l, e.checkOutTime ≠ none) :
    (∀ t, get_key_log_times uid text l ≠ (none, some t))
  ∧ (process_key_tag regs l s uid text now nid).2.2 ≠ KeyOutcome.unexpectedState
  ∧ (∀ l2, check_out_key regs uid text emp now nid l = .ok l2 →
       ∀ e ∈ l2, e.checkOutTime ≠ none) := by
  have hco : ∀ r, mostRecent (l.filter (pairB uid text)) = some r →
      r.checkOutTime ≠ none := fun r hr =>
    hall r (List.mem_filter.1 (mostRecent_mem _ r hr)).1
  refine ⟨?_, ?_, ?_⟩
  · intro t hcontra
    unfold get_key_log_times at hcontra
    split at hcontra
    · rename_i r hr
      simp at hcontra
      exact hco r hr hcontra.1
    · simp at hcontra
  · cases hm : mostRecent (l.filter (pairB uid text)) with
    | none =>
      have hget : get_key_log_times uid text l = (none, none) := by
        unfold get_key_log_times
        rw [hm]
      unfold process_key_tag
      dsimp only
      rw [hget]
      dsimp only
      rw [if_pos (Or.inl ⟨rfl, rfl⟩)]
      split
      · split
        · simp
        · split <;> simp
      · simp
    | some r =>
      obtain ⟨c, hc⟩ : ∃ c, r.checkOutTime = some c := by
        cases hrc : r.checkOutTime with
        | none => exact absurd hrc (hco r hm)
        | some c => exact ⟨c, rfl⟩
      cases hci : r.checkInTime with
      | some ci2 =>
        have hget : get_key_log_times uid text l = (some c, some ci2) := by
          simp [get_key_log_times, hm, hc, hci]
        unfold process_key_tag
        dsimp only
        rw [hget]
        dsimp only
        rw [if_pos (Or.inr ⟨by simp, by simp⟩)]
        split
        · split
          · simp
          · split <;> simp
        · simp
      | none =>
        have hget : get_key_log_times uid text l = (some c, none) := by
          simp [get_key_log_times, hm, hc, hci]
        unfold process_key_tag
        dsimp only
        rw [hget]
        dsimp only
        rw [if_neg (by simp)]
        split
        · simp
        · split <;> simp
  · intro l2 hok e hmem
    obtain ⟨-, rfl⟩ := check_out_key_ok hok
    rcases List.mem_append.1 hmem with h | h
    · exact hall e h
    · simp at h
      rw [h]
      simp

theorem unexpected_state_unreachable_witness :
    (∀ t, get_key_log_times 7 "k" [] ≠ (none, some t))
  ∧ (process_key_tag (fun _ => none) [] {} 7 "k" 0 0).2.2
      ≠ KeyOutcome.unexpectedState
  ∧ (∀ l2, check_out_key (fun _ => none) 7 "k" 1 0 0 [] = .ok l2 →
       ∀ e ∈ l2, e.checkOutTime ≠ none) :=
  unexpected_state_unreachable (fun _ => none) [] {} 7 1 "k" 0 0
    (by simp)

/-- C9: the label cipher round-trips: given the external AEAD primitive's
round-trip contract at the drawn 12-byte nonce and the UTF-8 codec's
round-trip contract, `decrypt_name` of `encrypt_name` recovers the label,
because encryption prepends the nonce to ciphertext+tag and decryption
splits the first 12 bytes back off as the nonce. -/
theorem encrypt_decrypt_roundtrip (A : AEAD) (encode : String → Bytes)
    (decode : Bytes → Option String) (key nonce : Bytes) (label : String)
    (hnonce : nonce.length = 12)
    (hA : A.dec key nonce (A.enc key nonce (encode label))
            = some (encode label))
    (hcodec : decode (encode label) = some label) :
    decrypt_name A decode key (encrypt_name A encode key nonce label)
      = some label := by
  unfold decrypt_name encrypt_name
  rw [List.take_left' hnonce, List.drop_left' hnonce, hA]
  simpa using hcodec

theorem encrypt_decrypt_roundtrip_witness :
    decrypt_name ⟨fun _ _ d => d, fun _ _ c => some c⟩ (fun _ => some "ab") []
        (encrypt_name ⟨fun _ _ d => d, fun _ _ c => some c⟩ (fun _ => []) []
          (List.replicate 12 0) "ab")
      = some "ab" :=
  encrypt_decrypt_roundtrip ⟨fun _ _ d => d, fun _ _ c => some c⟩
    (fun _ => []) (fun _ => some "ab") [] (List.replicate 12 0) "ab"
    (by simp) rfl rfl

end KeyFob
